import Mathlib

set_option maxHeartbeats 1000000
set_option maxRecDepth 8192

/-- Process lifecycle states, as used throughout os_scheduler.c and
os_scheduling_strategies.c (OS_PS_UNUSED, OS_PS_READY, OS_PS_RUNNING). -/
inductive ProcessState where
| OS_PS_UNUSED
| OS_PS_READY
| OS_PS_RUNNING
deriving DecidableEq

open ProcessState

/-- Modelled from the spec: MAX_NUMBER_OF_PROCESSES comes from defines.h, which
is not part of src; the canonical value is N_MAX = 8, matching the hard-coded
wrap at 7 in the strategies' cyclic search. -/
def MAX_NUMBER_OF_PROCESSES : Nat := 8

/-- Modelled from the spec: INVALID_PROCESS comes from defines.h, which is not
part of src; a sentinel outside [0, N_MAX), canonically the 8-bit value 255. -/
def INVALID_PROCESS : Nat := 255

/-- Modelled from the spec: STACK_SIZE_PROC comes from defines.h, which is not
part of src; any positive size consistent with the spec's disjoint downward
stack regions works for the development below. -/
def STACK_SIZE_PROC : Nat := 128

/-- Modelled from the spec: PROCESS_STACK_BOTTOM comes from defines.h, which is
not part of src. Slot pid owns the region
[PROCESS_STACK_BOTTOM pid - STACK_SIZE_PROC + 1, PROCESS_STACK_BOTTOM pid],
growing downward; the regions of different slots do not alias. -/
def PROCESS_STACK_BOTTOM (pid : Fin 8) : Nat := 2048 + 256 * pid.val

/-- Modelled from the spec: BOTTOM_OF_ISR_STACK is the platform constant for
the dedicated scheduler stack (defines.h is not part of src). -/
def BOTTOM_OF_ISR_STACK : Nat := 1536

/-- One slot of the process table. The struct comes from os_process.h (not in
src); its fields are exactly those read and written by os_scheduler.c: state,
program entry pointer, priority, saved stack pointer (the sp union's as_int
view, a numeric address), and stack checksum. The program pointer is modelled
as a numeric address with 0 standing for NULL. -/
structure Process where
  state : ProcessState
  program : Nat
  priority : Nat
  sp : Nat
  checksum : Nat
deriving DecidableEq

/-- The five scheduling strategies of os_scheduler.h. -/
inductive SchedulingStrategy where
| OS_SS_EVEN
| OS_SS_RANDOM
| OS_SS_RUN_TO_COMPLETION
| OS_SS_ROUND_ROBIN
| OS_SS_INACTIVE_AGING
deriving DecidableEq

open SchedulingStrategy

/-- Modelled from the spec: the SchedulingInformation record declared in
os_scheduling_strategies.h (not in src): a remaining time slice for
RoundRobin and an integer age accumulator per slot for InactiveAging. -/
structure SchedulingInformation where
  timeSlice : Nat
  age : Fin 8 → Nat

/-- The global state of the scheduler core: the process table os_processes and
the globals of os_scheduler.c (currentProcess, currentProc, actual,
criticalSectionCount), the strategies' schedulingInfo, the hardware stack
pointer SP, the byte-valued SREG and TIMSK2 i/o registers, and data memory as
a byte map. -/
structure OsState where
  os_processes : Fin 8 → Process
  currentProcess : Fin 8
  currentProc : Fin 8
  actual : SchedulingStrategy
  criticalSectionCount : Nat
  schedulingInfo : SchedulingInformation
  SP : Nat
  SREG : Nat
  TIMSK2 : Nat
  mem : Nat → Nat

/-- Fatal error conditions reported through the external os_errorPStr sink,
which the spec takes as non-returning (halt or reset). -/
inductive OsError where
| CriticalSectionOverflow
| CriticalSectionUnderflow
deriving DecidableEq

/-- os_enterCriticalSection (os_scheduler.c lines 265-276): snapshot the global
interrupt enable bit SREG bit 7, clear it, check the nesting counter against
255 (overflow is fatal), increment it, mask the timer-compare interrupt
(OCIE2A is bit 1 of TIMSK2 on the target, so the mask is 253 within a byte),
and restore the snapshot bit. -/
def os_enterCriticalSection (st : OsState) : Except OsError OsState :=
  let GIEB := st.SREG >>> 7
  let st1 := { st with SREG := st.SREG &&& 127 }
  if st1.criticalSectionCount = 255 then Except.error OsError.CriticalSectionOverflow
  else
    let st2 := { st1 with criticalSectionCount := st1.criticalSectionCount + 1 }
    let st3 := { st2 with TIMSK2 := st2.TIMSK2 &&& 253 }
    Except.ok { st3 with SREG := st3.SREG ||| (GIEB <<< 7) }

/-- os_leaveCriticalSection (os_scheduler.c lines 284-299): snapshot and clear
the global interrupt enable bit, check the nesting counter against 0
(underflow is fatal), decrement it, unmask the timer-compare interrupt
(TIMSK2 bit 1, i.e. set bit value 2) when the counter reaches 0, and restore
the snapshot bit. -/
def os_leaveCriticalSection (st : OsState) : Except OsError OsState :=
  let GIEB := st.SREG >>> 7
  let st1 := { st with SREG := st.SREG &&& 127 }
  if st1.criticalSectionCount = 0 then Except.error OsError.CriticalSectionUnderflow
  else
    let st2 := { st1 with criticalSectionCount := st1.criticalSectionCount - 1 }
    let st3 :=
      if st2.criticalSectionCount = 0 then { st2 with TIMSK2 := st2.TIMSK2 ||| 2 } else st2
    Except.ok { st3 with SREG := st3.SREG ||| (GIEB <<< 7) }

/-- The enter/leave pair, the round-trip of section 8 of the spec. -/
def csPair (st : OsState) : Except OsError OsState :=
  match os_enterCriticalSection st with
  | Except.error e => Except.error e
  | Except.ok st1 => os_leaveCriticalSection st1

/-- os_getStackChecksum (os_scheduler.c lines 307-313): XOR fold of the
STACK_SIZE_PROC + 1 bytes at PROCESS_STACK_BOTTOM pid + p, p = 0 .. STACK_SIZE_PROC. -/
def os_getStackChecksum (mem : Nat → Nat) (pid : Fin 8) : Nat :=
  (List.range (STACK_SIZE_PROC + 1)).foldl
    (fun acc p => acc ^^^ mem (PROCESS_STACK_BOTTOM pid + p)) 0

/-- os_resetProcessSchedulingInformation (os_scheduling_strategies.c lines
47-49): clear the age accumulator of the given slot. -/
def os_resetProcessSchedulingInformation (id : Fin 8) (st : OsState) : OsState :=
  { st with schedulingInfo :=
      { st.schedulingInfo with age := Function.update st.schedulingInfo.age id 0 } }

/-- os_resetSchedulingInformation (os_scheduling_strategies.c lines 28-38).
For OS_SS_ROUND_ROBIN the source reads the current process's priority through
an ill-typed expression (os_getCurrentProc()->priority on a non-pointer);
that access is modelled from the spec, which mandates reading the priority of
the current process through the process-table lookup. For
OS_SS_INACTIVE_AGING the source's loop (while age[0] is nonzero, set age[0]
to 0, with the iterator never advancing) terminates after at most one
iteration with age[0] = 0 and all other ages untouched, which is the effect
modelled here. -/
def os_resetSchedulingInformation (strategy : SchedulingStrategy) (st : OsState) : OsState :=
  let st1 :=
    if strategy = OS_SS_ROUND_ROBIN then
      { st with schedulingInfo :=
          { st.schedulingInfo with
              timeSlice := (st.os_processes st.currentProc).priority } }
    else st
  if strategy = OS_SS_INACTIVE_AGING then
    { st1 with schedulingInfo :=
        { st1.schedulingInfo with age := Function.update st1.schedulingInfo.age 0 0 } }
  else st1

/-- os_setSchedulingStrategy (os_scheduler.c lines 245-247): the body only
invokes os_resetSchedulingInformation; it never stores its argument into the
private variable actual. -/
def os_setSchedulingStrategy (strategy : SchedulingStrategy) (st : OsState) : OsState :=
  os_resetSchedulingInformation strategy st

/-- os_getSchedulingStrategy (os_scheduler.c lines 254-256). -/
def os_getSchedulingStrategy (st : OsState) : SchedulingStrategy :=
  st.actual

/-- os_getCurrentProc (os_scheduler.c lines 236-238): returns the global
currentProc (not currentProcess). -/
def os_getCurrentProc (st : OsState) : Fin 8 :=
  st.currentProc

/-- The 33 zero bytes pushed for SREG and the 32 registers in os_exec (lines
183-185): write n zeros at descending addresses starting at a, returning the
new memory and the final stack pointer (one below the last byte written). -/
def pushZeros : (Nat → Nat) → Nat → Nat → (Nat → Nat) × Nat
| m, a, 0 => (m, a)
| m, a, n + 1 => pushZeros (Function.update m a 0) (a - 1) n

/-- os_exec (os_scheduler.c lines 152-189), translated faithfully, including
the two failure paths that return without leaving the critical section: enter
the critical section; return INVALID_PROCESS if program is NULL; scan for the
first OS_PS_UNUSED slot and return INVALID_PROCESS if there is none;
initialise the slot (program, state OS_PS_READY, priority,
sp = PROCESS_STACK_BOTTOM pid, checksum 0, age reset); push the entry
address low byte then high byte, then 33 zero bytes, sp decreasing after
every byte; leave the critical section and return the slot id. -/
def os_exec (program priority : Nat) (st : OsState) : Except OsError (Nat × OsState) :=
  match os_enterCriticalSection st with
  | Except.error e => Except.error e
  | Except.ok st1 =>
    if program = 0 then Except.ok (INVALID_PROCESS, st1)
    else
      match (List.finRange 8).find? (fun i => decide ((st1.os_processes i).state = OS_PS_UNUSED)) with
      | none => Except.ok (INVALID_PROCESS, st1)
      | some pid =>
        let p0 : Process :=
          { state := OS_PS_READY, program := program, priority := priority,
            sp := PROCESS_STACK_BOTTOM pid, checksum := 0 }
        let st2 := { st1 with os_processes := Function.update st1.os_processes pid p0 }
        let st3 := os_resetProcessSchedulingInformation pid st2
        let sp0 := PROCESS_STACK_BOTTOM pid
        let m1 := Function.update st3.mem sp0 (program % 256)
        let m2 := Function.update m1 (sp0 - 1) ((program % 65536) / 256)
        let z := pushZeros m2 (sp0 - 2) 33
        let pStacked : Process := { p0 with sp := z.2 }
        let st4 : OsState :=
          { st3 with mem := z.1, os_processes := Function.update st3.os_processes pid pStacked }
        match os_leaveCriticalSection st4 with
        | Except.error e => Except.error e
        | Except.ok st5 => Except.ok (pid.val, st5)

/-- os_startScheduler (os_scheduler.c lines 196-201): set currentProc to 0,
mark slot 0 OS_PS_RUNNING, and load slot 0's saved sp into the hardware stack
pointer (the final restoreContext is the external platform routine that pops
the primed register frame and is outside the model). -/
def os_startScheduler (st : OsState) : OsState :=
  let st1 := { st with currentProc := (0 : Fin 8) }
  let slot0 := st1.os_processes 0
  let slot0run : Process := { slot0 with state := OS_PS_RUNNING }
  let st2 := { st1 with os_processes := Function.update st1.os_processes 0 slot0run }
  { st2 with SP := (st2.os_processes 0).sp }

/-- The loop counting OS_PS_READY slots, shared verbatim by Even, Random,
RoundRobin and RunToCompletion (os_scheduling_strategies.c). -/
def numberOfReadyProcs (processes : Fin 8 → Process) : Nat :=
  (List.finRange 8).foldl
    (fun n i => if (processes i).state = OS_PS_READY then n + 1 else n) 0

/-- One step of the cyclic successor used by Even and RunToCompletion
(os_scheduling_strategies.c lines 71-76 and 205-210): 7 wraps to 1, any other
id is incremented; slot 0 is excluded from the cycle. -/
def nextId (c : Fin 8) : Fin 8 :=
  if c = 7 then 1 else c + 1

/-- The search loop of Even and RunToCompletion, which in the source is
while(1): advance current cyclically, return it as soon as it is
OS_PS_READY. The loop only ever visits slots 1..7, so it either returns
within 7 steps or runs forever; it is made total with explicit fuel, none
modelling non-termination. -/
def evenSearch (processes : Fin 8 → Process) : Nat → Fin 8 → Option (Fin 8)
| 0, _ => none
| fuel + 1, c =>
  if (processes (nextId c)).state = OS_PS_READY then some (nextId c)
  else evenSearch processes fuel (nextId c)

/-- os_Scheduler_Even (os_scheduling_strategies.c lines 61-81): return 0 when
exactly one slot is ready, otherwise run the cyclic search from current. -/
def os_Scheduler_Even (processes : Fin 8 → Process) (current : Fin 8) : Option (Fin 8) :=
  if numberOfReadyProcs processes = 1 then some 0
  else evenSearch processes 7 current

/-- The ids of ready slots in ascending order, as collected into the local
array of os_Scheduler_Random (os_scheduling_strategies.c lines 101-108). -/
def readyIds (processes : Fin 8 → Process) : List (Fin 8) :=
  (List.finRange 8).filter (fun i => decide ((processes i).state = OS_PS_READY))

/-- os_Scheduler_Random (os_scheduling_strategies.c lines 91-110), with the
value of the external rand() call passed in: return 0 when exactly one slot
is ready, otherwise index the ready-id array at rand() mod (n-1), plus 1.
With no ready slot at all the source indexes a zero-length array, which is
undefined behaviour, modelled as none. -/
def os_Scheduler_Random (randVal : Nat) (processes : Fin 8 → Process) (current : Fin 8) :
    Option (Fin 8) :=
  let n := numberOfReadyProcs processes
  if n = 1 then some 0
  else if n = 0 then none
  else (readyIds processes).get? (randVal % (n - 1) + 1)

/-- os_Scheduler_RoundRobin (os_scheduling_strategies.c lines 123-145): if the
current slot is ready and the time slice is positive, decrement the slice and
return current; otherwise return 0 when exactly one slot is ready, else run
the selection loop, which compares each slot's priority against the candidate
variable (a slot id, exactly as the source does) and never touches the time
slice. -/
def os_Scheduler_RoundRobin (processes : Fin 8 → Process) (current : Fin 8)
    (info : SchedulingInformation) : Fin 8 × SchedulingInformation :=
  if (processes current).state = OS_PS_READY ∧ info.timeSlice > 0 then
    (current, { info with timeSlice := info.timeSlice - 1 })
  else if numberOfReadyProcs processes = 1 then ((0 : Fin 8), info)
  else
    ((List.finRange 8).foldl
      (fun acc i => if (processes i).priority > acc.val then i else acc) (0 : Fin 8), info)

/-- The ages after the first loop of os_Scheduler_InactiveAging
(os_scheduling_strategies.c lines 159-163): every OS_PS_READY slot's age is
increased by its priority. -/
def agedAges (processes : Fin 8 → Process) (info : SchedulingInformation) : Fin 8 → Nat :=
  fun i =>
    if (processes i).state = OS_PS_READY then info.age i + (processes i).priority
    else info.age i

/-- The body of the selection loop of os_Scheduler_InactiveAging
(os_scheduling_strategies.c lines 165-177), translated condition for
condition: a ready slot i replaces the candidate when its age is strictly
larger, or its age is equal and its priority strictly larger. -/
def agingStep (processes : Fin 8 → Process) (ages : Fin 8 → Nat) (next i : Fin 8) : Fin 8 :=
  if (processes i).state = OS_PS_READY ∧ ages i ≥ ages next then
    if ages i = ages next ∧ (processes i).priority ≥ (processes next).priority then
      if (processes i).priority > (processes next).priority then i else next
    else
      if ages i > ages next then i else next
  else next

/-- os_Scheduler_InactiveAging (os_scheduling_strategies.c lines 158-180):
age every ready slot by its priority, run the selection loop from candidate 0
(slot 0 is the initial candidate whether or not it is ready, exactly as in
the source), reset the winner's age to 0 and return it. -/
def os_Scheduler_InactiveAging (processes : Fin 8 → Process) (current : Fin 8)
    (info : SchedulingInformation) : Fin 8 × SchedulingInformation :=
  let ages := agedAges processes info
  let next := (List.finRange 8).foldl (agingStep processes ages) (0 : Fin 8)
  (next, { info with age := Function.update ages next 0 })

/-- os_Scheduler_RunToCompletion (os_scheduling_strategies.c lines 191-215):
return current while it is ready; otherwise fall through to the same
count-and-cyclic-search code as Even. -/
def os_Scheduler_RunToCompletion (processes : Fin 8 → Process) (current : Fin 8) :
    Option (Fin 8) :=
  if (processes current).state = OS_PS_READY then some current
  else if numberOfReadyProcs processes = 1 then some 0
  else evenSearch processes 7 current

/-- The strategy dispatch of the scheduler ISR (os_scheduler.c lines 86-113):
the switch on os_getSchedulingStrategy, each case calling the matching
strategy on the process table and currentProcess. The value of the external
rand() consumed by the Random case is passed in. none models a strategy call
that does not return (the unbounded search loops of Even, RunToCompletion and
the out-of-bounds read of Random). -/
def strategyDispatch (strategy : SchedulingStrategy) (randVal : Nat)
    (processes : Fin 8 → Process) (current : Fin 8) (info : SchedulingInformation) :
    Option (Fin 8) × SchedulingInformation :=
  match strategy with
  | OS_SS_EVEN => (os_Scheduler_Even processes current, info)
  | OS_SS_RANDOM => (os_Scheduler_Random randVal processes current, info)
  | OS_SS_RUN_TO_COMPLETION => (os_Scheduler_RunToCompletion processes current, info)
  | OS_SS_ROUND_ROBIN =>
    let r := os_Scheduler_RoundRobin processes current info
    (some r.1, r.2)
  | OS_SS_INACTIVE_AGING =>
    let r := os_Scheduler_InactiveAging processes current info
    (some r.1, r.2)

/-- The scheduler ISR body, ISR(TIMER2_COMPA_vect) (os_scheduler.c lines
70-123), between the external saveContext and restoreContext (whose
register-file pushes and pops are outside the model), for a tick on which the
polled input is not the task-manager code 9 (os_getInput, os_taskManMain are
external). In source order: save the hardware SP into
os_processes[currentProcess].sp; run on BOTTOM_OF_ISR_STACK; store the stack
checksum of currentProcess; mark currentProcess OS_PS_READY; dispatch the
active strategy and mark the slot it returns OS_PS_RUNNING; load
os_processes[currentProcess].sp back into the hardware SP — note that
currentProcess itself is never reassigned; verify the stored checksum
(a mismatch calls the non-returning error sink). none models a tick that
does not complete (strategy non-termination or checksum failure). -/
def isrStep (randVal : Nat) (st : OsState) : Option OsState :=
  let cur := st.currentProcess
  let slotA : Process := { st.os_processes cur with sp := st.SP }
  let t1 := Function.update st.os_processes cur slotA
  let slotB : Process := { t1 cur with checksum := os_getStackChecksum st.mem cur }
  let t2 := Function.update t1 cur slotB
  let slotC : Process := { t2 cur with state := OS_PS_READY }
  let t3 := Function.update t2 cur slotC
  match strategyDispatch st.actual randVal t3 cur st.schedulingInfo with
  | (none, _) => none
  | (some sel, info1) =>
    let slotD : Process := { t3 sel with state := OS_PS_RUNNING }
    let t4 := Function.update t3 sel slotD
    if (t4 cur).checksum = os_getStackChecksum st.mem cur then
      some { st with os_processes := t4, schedulingInfo := info1, SP := (t4 cur).sp }
    else none

/-- The state-mutating operations of the scheduler core's public interface,
plus the timer tick, for stating frame properties over arbitrary call
sequences. -/
inductive OsOp where
| exec (program priority : Nat)
| startScheduler
| tick (randVal : Nat)
| setStrategy (s : SchedulingStrategy)
| enterCS
| leaveCS

/-- Apply one operation; none when the operation does not complete normally
(fatal error or non-termination). -/
def applyOp : OsOp → OsState → Option OsState
| OsOp.exec p pr, st => ((os_exec p pr st).toOption).map (fun r => r.2)
| OsOp.startScheduler, st => some (os_startScheduler st)
| OsOp.tick rv, st => isrStep rv st
| OsOp.setStrategy s, st => some (os_setSchedulingStrategy s st)
| OsOp.enterCS, st => (os_enterCriticalSection st).toOption
| OsOp.leaveCS, st => (os_leaveCriticalSection st).toOption

/-- An unused slot with all fields zero. -/
def procUnused : Process :=
  { state := OS_PS_UNUSED, program := 0, priority := 0, sp := 0, checksum := 0 }

/-- A ready slot with a given priority. -/
def procReady (priority : Nat) : Process :=
  { state := OS_PS_READY, program := 3000, priority := priority, sp := 0, checksum := 0 }

/-- A running slot with a given priority. -/
def procRunning (priority : Nat) : Process :=
  { state := OS_PS_RUNNING, program := 3000, priority := priority, sp := 0, checksum := 0 }

/-- Scheduling information with all ages and the time slice zero. -/
def infoZero : SchedulingInformation :=
  { timeSlice := 0, age := fun _ => 0 }

/-- Process table for the RoundRobin counterexamples: slots 1 and 2 are Ready
with equal priority 3, slot 5 is Unused but carries the stale priority 10,
slot 0 is Running, everything else is Unused with priority 0. -/
def tblRR : Fin 8 → Process :=
  ![procRunning 0, procReady 3, procReady 3, procUnused, procUnused,
    { procUnused with priority := 10 }, procUnused, procUnused]


/-- Process table for the Even/RunToCompletion counterexample: slot 3 is the
only Ready slot (non-idle), slot 0 is Running, the rest Unused. -/
def tblOnly3 : Fin 8 → Process :=
  ![procRunning 0, procUnused, procUnused, procReady 2, procUnused,
    procUnused, procUnused, procUnused]


/-- State for the InactiveAging counterexample: slot 0 is Running with a stale
age of 10, slot 1 is the only Ready slot, with priority 1 and age 0. -/
def tblIA : Fin 8 → Process :=
  ![procRunning 0, procReady 1, procUnused, procUnused, procUnused,
    procUnused, procUnused, procUnused]

/-- Ages for the InactiveAging counterexample: a stale age 10 on slot 0. -/
def infoIA : SchedulingInformation :=
  { timeSlice := 0, age := ![10, 0, 0, 0, 0, 0, 0, 0] }


/-- State for the ISR counterexample: slot 1 is the pre-empted Running process
(currentProcess = 1) with a distinct saved sp, slots 0 and 2 are Ready; the
active strategy is Even; the interrupted hardware SP is 222 and slot 2's
saved sp is 333. -/
def stISR : OsState :=
  { os_processes :=
      ![{ procReady 0 with sp := 111 }, { procRunning 0 with sp := 999 },
        { procReady 0 with sp := 333 }, procUnused, procUnused, procUnused,
        procUnused, procUnused],
    currentProcess := 1, currentProc := 0, actual := OS_SS_EVEN,
    criticalSectionCount := 0, schedulingInfo := infoZero,
    SP := 222, SREG := 128, TIMSK2 := 2, mem := fun _ => 0 }


/-- State for the critical-section-leak counterexample: nesting depth 0. -/
def stCS : OsState :=
  { os_processes := ![procRunning 0, procUnused, procUnused, procUnused,
      procUnused, procUnused, procUnused, procUnused],
    currentProcess := 0, currentProc := 0, actual := OS_SS_EVEN,
    criticalSectionCount := 0, schedulingInfo := infoZero,
    SP := 222, SREG := 128, TIMSK2 := 2, mem := fun _ => 0 }

/-- State with a full process table (no slot Unused) at nesting depth 0. -/
def stFull : OsState :=
  { os_processes := ![procRunning 0, procReady 1, procReady 2, procReady 3,
      procReady 4, procReady 5, procReady 6, procReady 7],
    currentProcess := 0, currentProc := 0, actual := OS_SS_EVEN,
    criticalSectionCount := 0, schedulingInfo := infoZero,
    SP := 222, SREG := 128, TIMSK2 := 2, mem := fun _ => 0 }


/-- State for the timer-mask counterexample: depth 0 and TIMSK2 bit 1 clear. -/
def stMask : OsState :=
  { stCS with TIMSK2 := 0 }


/-- The spec's lexicographic selection key for InactiveAging as a dominance
relation: w beats i when w's age is strictly larger, or the ages are equal
and w's priority is strictly larger, or both are equal and w's id is not
larger (age descending, priority descending, slot id ascending). -/
def agingDom (processes : Fin 8 → Process) (ages : Fin 8 → Nat) (w i : Fin 8) : Prop :=
  ages i < ages w ∨ (ages w = ages i ∧
    ((processes i).priority < (processes w).priority ∨
      ((processes w).priority = (processes i).priority ∧ w.val ≤ i.val)))

theorem agingDom_refl (processes : Fin 8 → Process) (ages : Fin 8 → Nat) (w : Fin 8) :
    agingDom processes ages w w := by
  unfold agingDom
  omega

theorem agingDom_trans (processes : Fin 8 → Process) (ages : Fin 8 → Nat) (a b c : Fin 8)
    (h1 : agingDom processes ages a b) (h2 : agingDom processes ages b c) :
    agingDom processes ages a c := by
  unfold agingDom at h1 h2 ⊢
  omega

theorem agingStep_eq_or (processes : Fin 8 → Process) (ages : Fin 8 → Nat) (next i : Fin 8) :
    agingStep processes ages next i = i ∨ agingStep processes ages next i = next := by
  unfold agingStep
  split
  · split
    · split
      · exact Or.inl rfl
      · exact Or.inr rfl
    · split
      · exact Or.inl rfl
      · exact Or.inr rfl
  · exact Or.inr rfl

theorem agingStep_ready (processes : Fin 8 → Process) (ages : Fin 8 → Nat) (next i : Fin 8)
    (h : (processes next).state = OS_PS_READY) :
    (processes (agingStep processes ages next i)).state = OS_PS_READY := by
  unfold agingStep
  split
  case isTrue h1 =>
    split
    · split
      · exact h1.1
      · exact h
    · split
      · exact h1.1
      · exact h
  case isFalse _ => exact h

theorem agingStep_dom_next (processes : Fin 8 → Process) (ages : Fin 8 → Nat) (next i : Fin 8) :
    agingDom processes ages (agingStep processes ages next i) next := by
  unfold agingStep
  split
  case isTrue h1 =>
    split
    case isTrue h2 =>
      split
      case isTrue h3 =>
        exact Or.inr ⟨h2.1, Or.inl h3⟩
      case isFalse _ => exact agingDom_refl processes ages next
    case isFalse h2 =>
      split
      case isTrue h3 => exact Or.inl h3
      case isFalse _ => exact agingDom_refl processes ages next
  case isFalse _ => exact agingDom_refl processes ages next

theorem agingStep_dom_i (processes : Fin 8 → Process) (ages : Fin 8 → Nat) (next i : Fin 8)
    (hle : next.val ≤ i.val) (hready : (processes i).state = OS_PS_READY) :
    agingDom processes ages (agingStep processes ages next i) i := by
  unfold agingStep
  split
  case isTrue h1 =>
    split
    case isTrue h2 =>
      split
      case isTrue _ => exact agingDom_refl processes ages i
      case isFalse h3 =>
        exact Or.inr ⟨h2.1.symm, Or.inr ⟨by omega, hle⟩⟩
    case isFalse h2 =>
      split
      case isTrue _ => exact agingDom_refl processes ages i
      case isFalse h3 =>
        have hage : ages i = ages next := by omega
        have hpm : ¬ ((processes next).priority ≤ (processes i).priority) := by
          intro hcontra
          exact h2 ⟨hage, hcontra⟩
        exact Or.inr ⟨hage.symm, Or.inl (by omega)⟩
  case isFalse h1 =>
    have hlt : ages i < ages next := by
      rcases Nat.lt_or_ge (ages i) (ages next) with h | h
      · exact h
      · exact absurd ⟨hready, h⟩ h1
    exact Or.inl hlt

theorem agingFold_spec (processes : Fin 8 → Process) (ages : Fin 8 → Nat) :
    ∀ (L : List (Fin 8)) (acc : Fin 8),
      (∀ k ∈ L, acc.val ≤ k.val) → List.Pairwise (· < ·) L →
      (processes acc).state = OS_PS_READY →
      (processes (L.foldl (agingStep processes ages) acc)).state = OS_PS_READY ∧
      agingDom processes ages (L.foldl (agingStep processes ages) acc) acc ∧
      ∀ i ∈ L, (processes i).state = OS_PS_READY →
        agingDom processes ages (L.foldl (agingStep processes ages) acc) i := by
  intro L
  induction L with
  | nil =>
    intro acc _ _ hr
    exact ⟨hr, agingDom_refl processes ages acc, by intro i hi; cases hi⟩
  | cons j L ih =>
    intro acc hle hpw hr
    rw [List.foldl_cons]
    have hpwc := List.pairwise_cons.mp hpw
    have hle2 : ∀ k ∈ L, (agingStep processes ages acc j).val ≤ k.val := by
      intro k hk
      rcases agingStep_eq_or processes ages acc j with he | he <;> rw [he]
      · exact Nat.le_of_lt (hpwc.1 k hk)
      · exact hle k (List.mem_cons_of_mem _ hk)
    have hr2 : (processes (agingStep processes ages acc j)).state = OS_PS_READY :=
      agingStep_ready processes ages acc j hr
    obtain ⟨ih1, ih2, ih3⟩ := ih (agingStep processes ages acc j) hle2 hpwc.2 hr2
    refine ⟨ih1, ?_, ?_⟩
    · exact agingDom_trans processes ages _ _ _ ih2
        (agingStep_dom_next processes ages acc j)
    · intro i hi hri
      rcases List.mem_cons.mp hi with rfl | hmem
      · exact agingDom_trans processes ages _ _ _ ih2
          (agingStep_dom_i processes ages acc i (hle i (List.mem_cons_self _ _)) hri)
      · exact ih3 i hmem hri

theorem pairwise_lt_finRange_eight : List.Pairwise (fun a b : Fin 8 => a < b) (List.finRange 8) := by
  decide

/-- Fuelled iterate of the cyclic successor, for reasoning about the
evenSearch loop's visit order. -/
def nextIter : Nat → Fin 8 → Fin 8
| 0, c => c
| n + 1, c => nextIter n (nextId c)

theorem nextId_pos : ∀ c : Fin 8, 1 ≤ (nextId c).val := by decide

theorem nextIter_coverage : ∀ c r : Fin 8, 1 ≤ r.val →
    ∃ j : Fin 8, 1 ≤ j.val ∧ nextIter j.val c = r := by decide

theorem evenSearch_some_spec (processes : Fin 8 → Process) :
    ∀ (fuel : Nat) (c r : Fin 8), evenSearch processes fuel c = some r →
      1 ≤ r.val ∧ (processes r).state = OS_PS_READY := by
  intro fuel
  induction fuel with
  | zero => intro c r h; exact Option.noConfusion h
  | succ n ih =>
    intro c r h
    unfold evenSearch at h
    split at h
    case isTrue hready =>
      cases h
      exact ⟨nextId_pos c, hready⟩
    case isFalse _ => exact ih (nextId c) r h

theorem evenSearch_none_spec (processes : Fin 8 → Process) :
    ∀ (fuel : Nat) (c : Fin 8), evenSearch processes fuel c = none →
      ∀ j : Nat, 1 ≤ j → j ≤ fuel → (processes (nextIter j c)).state ≠ OS_PS_READY := by
  intro fuel
  induction fuel with
  | zero => intro c _ j h1 h2 _; omega
  | succ n ih =>
    intro c h j h1 h2
    unfold evenSearch at h
    split at h
    case isTrue _ => exact Option.noConfusion h
    case isFalse hnr =>
      cases j with
      | zero => omega
      | succ jj =>
        cases jj with
        | zero =>
          intro hcontra
          exact hnr hcontra
        | succ k =>
          have hnext := ih (nextId c) h (k + 1) (by omega) (by omega)
          intro hcontra
          exact hnext hcontra

theorem evenSearch_success (processes : Fin 8 → Process) (c r : Fin 8) (hr : 1 ≤ r.val)
    (hready : (processes r).state = OS_PS_READY) :
    ∃ w : Fin 8, evenSearch processes 7 c = some w := by
  cases he : evenSearch processes 7 c with
  | some w => exact ⟨w, rfl⟩
  | none =>
    obtain ⟨j, hj1, hjr⟩ := nextIter_coverage c r hr
    have hj7 : j.val ≤ 7 := Nat.lt_succ_iff.mp j.isLt
    have hnone := evenSearch_none_spec processes 7 c he j.val hj1 hj7
    rw [hjr] at hnone
    exact absurd hready hnone

theorem two_ready_nonidle (processes : Fin 8 → Process)
    (h2 : 2 ≤ numberOfReadyProcs processes) :
    ∃ r : Fin 8, 1 ≤ r.val ∧ (processes r).state = OS_PS_READY := by
  by_contra hno
  push_neg at hno
  have e : List.finRange 8 = [0, 1, 2, 3, 4, 5, 6, 7] := by decide
  unfold numberOfReadyProcs at h2
  rw [e] at h2
  simp only [List.foldl_cons, List.foldl_nil,
    if_neg (hno 1 (by decide)), if_neg (hno 2 (by decide)), if_neg (hno 3 (by decide)),
    if_neg (hno 4 (by decide)), if_neg (hno 5 (by decide)), if_neg (hno 6 (by decide)),
    if_neg (hno 7 (by decide))] at h2
  split at h2 <;> omega

theorem sreg_restore_roundtrip : ∀ s : Nat, s < 256 →
    (s &&& 127) ||| ((s >>> 7) <<< 7) = s := by decide

theorem timsk_set_after_clear : ∀ t : Nat, t < 256 → ((t &&& 253) ||| 2) = t ||| 2 := by decide

theorem timsk_or_two_of_testBit : ∀ t : Nat, t < 256 → t.testBit 1 = true → t ||| 2 = t := by
  decide

theorem enter_ok_of_count_ne (st : OsState) (h : st.criticalSectionCount ≠ 255) :
    os_enterCriticalSection st = Except.ok
      { st with
          SREG := (st.SREG &&& 127) ||| ((st.SREG >>> 7) <<< 7)
          criticalSectionCount := st.criticalSectionCount + 1
          TIMSK2 := st.TIMSK2 &&& 253 } := by
  unfold os_enterCriticalSection
  rw [if_neg h]

theorem leave_ok_of_count_one (st : OsState) (h : st.criticalSectionCount = 1) :
    os_leaveCriticalSection st = Except.ok
      { st with
          SREG := (st.SREG &&& 127) ||| ((st.SREG >>> 7) <<< 7)
          criticalSectionCount := 0
          TIMSK2 := st.TIMSK2 ||| 2 } := by
  unfold os_leaveCriticalSection
  rw [h]
  rfl

/-- C6 (amended): starting from nesting depth 0 (with byte-valued SREG and
TIMSK2), the pair enter-then-leave succeeds, restores the nesting counter to
0, restores SREG (in particular the global interrupt enable bit) exactly, and
leaves every other component of the state unchanged except TIMSK2, which
becomes TIMSK2 ||| 2: the timer-compare mask bit OCIE2A is unconditionally 1
afterwards, so it equals its pre-pair value exactly when that bit was already
set, and is enabled, not restored, when it was clear. -/
theorem critical_pair_restores_state_and_enables_timer (st : OsState)
    (h0 : st.criticalSectionCount = 0) (hs : st.SREG < 256) (ht : st.TIMSK2 < 256) :
    ∃ st2 : OsState, csPair st = Except.ok st2 ∧
      st2.criticalSectionCount = 0 ∧
      st2.SREG = st.SREG ∧
      st2.TIMSK2 = st.TIMSK2 ||| 2 ∧
      st2.os_processes = st.os_processes ∧
      st2.currentProcess = st.currentProcess ∧
      st2.currentProc = st.currentProc ∧
      st2.actual = st.actual ∧
      st2.schedulingInfo = st.schedulingInfo ∧
      st2.SP = st.SP ∧
      st2.mem = st.mem ∧
      (st.TIMSK2.testBit 1 = true → st2.TIMSK2 = st.TIMSK2) := by
  have hne : st.criticalSectionCount ≠ 255 := by omega
  refine ⟨{ st with criticalSectionCount := 0, TIMSK2 := st.TIMSK2 ||| 2 },
    ?_, rfl, rfl, rfl, rfl, rfl, rfl, rfl, rfl, rfl, rfl, ?_⟩
  · unfold csPair
    rw [enter_ok_of_count_ne st hne]
    dsimp only
    rw [leave_ok_of_count_one _ (by simp [h0])]
    simp only [Except.ok.injEq]
    rw [sreg_restore_roundtrip st.SREG hs]
    rw [sreg_restore_roundtrip st.SREG hs]
    rw [timsk_set_after_clear st.TIMSK2 ht]
  · intro hb
    exact timsk_or_two_of_testBit st.TIMSK2 ht hb

/-- C4 (amended): provided slot 0 is Ready (so that the source's fixed initial
candidate 0 lies in the Ready candidate set), os_Scheduler_InactiveAging
first adds each Ready slot's priority to its age, returns a Ready winner that
is maximal under the key (age descending, priority descending, slot id
ascending) over the Ready slots, and resets exactly the winner's age to 0,
leaving the time slice unchanged. -/
theorem inactiveAging_correct_when_idle_ready (processes : Fin 8 → Process) (current : Fin 8)
    (info : SchedulingInformation) (h0 : (processes 0).state = OS_PS_READY) :
    (processes (os_Scheduler_InactiveAging processes current info).1).state = OS_PS_READY ∧
    (∀ i : Fin 8, (processes i).state = OS_PS_READY →
      agingDom processes (agedAges processes info)
        (os_Scheduler_InactiveAging processes current info).1 i) ∧
    (os_Scheduler_InactiveAging processes current info).2.age =
      Function.update (agedAges processes info)
        (os_Scheduler_InactiveAging processes current info).1 0 ∧
    (os_Scheduler_InactiveAging processes current info).2.timeSlice = info.timeSlice := by
  obtain ⟨h1, _, h3⟩ := agingFold_spec processes (agedAges processes info) (List.finRange 8)
    (0 : Fin 8) (fun k _ => Nat.zero_le k.val) pairwise_lt_finRange_eight h0
  exact ⟨h1, fun i hi => h3 i (List.mem_finRange i) hi, rfl, rfl⟩

/-- C7: when no slot is Unused (and entering the critical section does not
overflow), os_exec returns INVALID_PROCESS and the process table is
completely unchanged, for every program pointer and priority. -/
theorem exec_full_table_invalid_and_table_unchanged (program priority : Nat) (st : OsState)
    (hfull : ∀ i : Fin 8, (st.os_processes i).state ≠ OS_PS_UNUSED)
    (hcnt : st.criticalSectionCount ≠ 255) :
    ∃ st2 : OsState, os_exec program priority st = Except.ok (INVALID_PROCESS, st2) ∧
      st2.os_processes = st.os_processes := by
  have he := enter_ok_of_count_ne st hcnt
  unfold os_exec
  rw [he]
  dsimp only
  by_cases hp : program = 0
  · rw [if_pos hp]
    exact ⟨_, rfl, rfl⟩
  · rw [if_neg hp]
    have hfind : (List.finRange 8).find?
        (fun i => decide ((st.os_processes i).state = OS_PS_UNUSED)) = none := by
      apply List.find?_eq_none.mpr
      intro i _
      simpa using hfull i
    rw [hfind]
    exact ⟨_, rfl, rfl⟩

theorem enter_ok_currentProc {st st2 : OsState}
    (h : os_enterCriticalSection st = Except.ok st2) : st2.currentProc = st.currentProc := by
  unfold os_enterCriticalSection at h
  dsimp only at h
  split at h
  · exact Except.noConfusion h
  · cases h
    rfl

theorem leave_ok_currentProc {st st2 : OsState}
    (h : os_leaveCriticalSection st = Except.ok st2) : st2.currentProc = st.currentProc := by
  unfold os_leaveCriticalSection at h
  dsimp only at h
  split at h
  · exact Except.noConfusion h
  · cases h
    split <;> rfl

theorem exec_ok_currentProc {program priority : Nat} {st : OsState} {r : Nat} {st2 : OsState}
    (h : os_exec program priority st = Except.ok (r, st2)) :
    st2.currentProc = st.currentProc := by
  unfold os_exec at h
  cases he : os_enterCriticalSection st with
  | error e =>
    rw [he] at h
    exact Except.noConfusion h
  | ok st1 =>
    rw [he] at h
    have h1 := enter_ok_currentProc he
    dsimp only at h
    split at h
    · simp only [Except.ok.injEq, Prod.mk.injEq] at h
      rw [← h.2]
      exact h1
    · split at h
      · simp only [Except.ok.injEq, Prod.mk.injEq] at h
        rw [← h.2]
        exact h1
      · split at h
        · exact Except.noConfusion h
        · next st5 hleave =>
          simp only [Except.ok.injEq, Prod.mk.injEq] at h
          rw [← h.2]
          rw [leave_ok_currentProc hleave]
          exact h1

theorem isr_some_currentProc {randVal : Nat} {st st2 : OsState}
    (h : isrStep randVal st = some st2) : st2.currentProc = st.currentProc := by
  unfold isrStep at h
  dsimp only at h
  split at h
  · exact Option.noConfusion h
  · split at h
    · cases h
      rfl
    · exact Option.noConfusion h

theorem setStrategy_currentProc (s : SchedulingStrategy) (st : OsState) :
    (os_setSchedulingStrategy s st).currentProc = st.currentProc := by
  cases s <;> rfl

/-- C10: the variable behind os_getCurrentProc is only ever written by
os_startScheduler, which sets it to 0; the ISR reads and writes only the
distinct variable currentProcess. Hence, from any state in which currentProc
is 0 (its initialiser), every completed operation of the public interface
leaves os_getCurrentProc equal to 0, regardless of which slot is running. -/
theorem curproc_zero_after_every_op (op : OsOp) (st st2 : OsState)
    (h0 : st.currentProc = 0) (h : applyOp op st = some st2) :
    os_getCurrentProc st2 = 0 := by
  show st2.currentProc = 0
  cases op with
  | exec p pr =>
    simp only [applyOp] at h
    cases he : os_exec p pr st with
    | error e =>
      rw [he] at h
      exact Option.noConfusion h
    | ok rp =>
      obtain ⟨r, st1⟩ := rp
      rw [he] at h
      simp only [Except.toOption, Option.map] at h
      cases h
      rw [exec_ok_currentProc he]
      exact h0
  | startScheduler =>
    simp only [applyOp, Option.some.injEq] at h
    rw [← h]
    rfl
  | tick rv =>
    simp only [applyOp] at h
    rw [isr_some_currentProc h]
    exact h0
  | setStrategy s =>
    simp only [applyOp, Option.some.injEq] at h
    rw [← h, setStrategy_currentProc]
    exact h0
  | enterCS =>
    simp only [applyOp] at h
    cases he : os_enterCriticalSection st with
    | error e =>
      rw [he] at h
      exact Option.noConfusion h
    | ok st1 =>
      rw [he] at h
      simp only [Except.toOption, Option.some.injEq] at h
      rw [← h, enter_ok_currentProc he]
      exact h0
  | leaveCS =>
    simp only [applyOp] at h
    cases he : os_leaveCriticalSection st with
    | error e =>
      rw [he] at h
      exact Option.noConfusion h
    | ok st1 =>
      rw [he] at h
      simp only [Except.toOption, Option.some.injEq] at h
      rw [← h, leave_ok_currentProc he]
      exact h0

/-- C1: evaluation of the ISR model at a state where the Even strategy selects
slot 2 while slot 1 is the pre-empted process. The selected slot 2 is marked
Running, yet the handler neither updates currentProcess (it stays 1) nor
loads slot 2's saved sp 333: it reloads slot 1's just-saved hardware SP 222,
so the process resumed at ISR exit is the pre-empted slot, not the slot the
strategy selected — refuting the claim that cur is updated to the selected
slot and that slot's sp is loaded. -/
theorem isr_resumes_preempted_slot_not_selected :
    stISR.currentProcess = 1 ∧
    stISR.SP = 222 ∧
    (stISR.os_processes 2).sp = 333 ∧
    (isrStep 0 stISR).map (fun s => (s.os_processes 2).state) = some OS_PS_RUNNING ∧
    (isrStep 0 stISR).map (fun s => s.currentProcess) = some 1 ∧
    (isrStep 0 stISR).map (fun s => s.SP) = some 222 := by decide

/-- C2: the RoundRobin strategy, called on a snapshot whose Ready slots are 1
and 2 while the Unused slot 5 carries a stale priority 10, returns slot 5 —
a slot that is neither Ready nor 0 — because its selection loop compares each
slot's priority against the candidate slot id. This refutes the claim that
every strategy returns a Ready slot or 0. -/
theorem roundRobin_returns_non_ready_slot :
    (os_Scheduler_RoundRobin tblRR 0 infoZero).1 = 5 ∧
    (tblRR 5).state ≠ OS_PS_READY ∧
    ((5 : Fin 8) ≠ 0) := by decide

/-- C3: on a snapshot where the current slot 0 is not Ready, slots 1 and 2 are
the Ready slots with equal priority 3, and the Unused slot 5 has stale
priority 10, RoundRobin would per the claim return slot 1 (highest-priority
Ready, lowest id on the tie) and reset the time slice to 3; the code instead
returns slot 5 and leaves the time slice untouched. -/
theorem roundRobin_ignores_tiebreak_and_time_slice :
    (tblRR 0).state ≠ OS_PS_READY ∧
    (tblRR 1).state = OS_PS_READY ∧ (tblRR 1).priority = 3 ∧
    (tblRR 2).state = OS_PS_READY ∧ (tblRR 2).priority = 3 ∧
    (tblRR 5).state ≠ OS_PS_READY ∧
    (os_Scheduler_RoundRobin tblRR 0 infoZero).1 = 5 ∧
    (os_Scheduler_RoundRobin tblRR 0 infoZero).2.timeSlice = infoZero.timeSlice := by decide

/-- C4 (counterexample): with slot 0 not Ready but carrying a stale age 10 and
slot 1 the only Ready slot (priority 1, age 0), InactiveAging returns slot 0
— which is not Ready — and leaves the Ready slot's incremented age at 1
instead of resetting the winner-per-the-claim's age: the claim's winner
(maximal over Ready slots only) fails because the source's candidate starts
at slot 0 regardless of its state. -/
theorem inactiveAging_winner_can_be_non_ready :
    (os_Scheduler_InactiveAging tblIA 0 infoIA).1 = 0 ∧
    (tblIA 0).state ≠ OS_PS_READY ∧
    (tblIA 1).state = OS_PS_READY ∧
    (os_Scheduler_InactiveAging tblIA 0 infoIA).2.age 1 = 1 := by decide

/-- Process table for the InactiveAging witness: slots 0, 1, 2 Ready with
priorities 1, 2, 3. -/
def tblAging : Fin 8 → Process :=
  ![procReady 1, procReady 2, procReady 3, procUnused, procUnused,
    procUnused, procUnused, procUnused]

/-- C4 witness: the amended InactiveAging theorem instantiated at a concrete
table whose slot 0 is Ready. -/
theorem inactiveAging_correct_witness :
    (tblAging (os_Scheduler_InactiveAging tblAging 0 infoZero).1).state = OS_PS_READY ∧
    (∀ i : Fin 8, (tblAging i).state = OS_PS_READY →
      agingDom tblAging (agedAges tblAging infoZero)
        (os_Scheduler_InactiveAging tblAging 0 infoZero).1 i) ∧
    (os_Scheduler_InactiveAging tblAging 0 infoZero).2.age =
      Function.update (agedAges tblAging infoZero)
        (os_Scheduler_InactiveAging tblAging 0 infoZero).1 0 ∧
    (os_Scheduler_InactiveAging tblAging 0 infoZero).2.timeSlice = infoZero.timeSlice :=
  inactiveAging_correct_when_idle_ready tblAging 0 infoZero (by decide)

/-- C5: os_exec enters the critical section and then returns INVALID_PROCESS
on both the null-program path and the full-table path without leaving it: the
nesting counter is 1 after either failing call that started at 0, refuting
the claim that every exit path restores the counter. -/
theorem exec_leaks_critical_section_on_failure_paths :
    stCS.criticalSectionCount = 0 ∧
    (os_exec 0 5 stCS).map (fun r => r.2.criticalSectionCount) = Except.ok 1 ∧
    (os_exec 0 5 stCS).map (fun r => r.1) = Except.ok INVALID_PROCESS ∧
    stFull.criticalSectionCount = 0 ∧
    (os_exec 4000 5 stFull).map (fun r => r.2.criticalSectionCount) = Except.ok 1 ∧
    (os_exec 4000 5 stFull).map (fun r => r.1) = Except.ok INVALID_PROCESS :=
  ⟨rfl, rfl, rfl, rfl, rfl, rfl⟩

/-- C6 (counterexample): from nesting depth 0 with the timer-compare mask bit
(TIMSK2 bit 1) clear, the pair enter-then-leave ends with that bit set: the
pair does not restore the bit to its pre-call value for both possible initial
values. -/
theorem critical_pair_forces_timer_mask_bit :
    stMask.criticalSectionCount = 0 ∧
    stMask.TIMSK2.testBit 1 = false ∧
    (csPair stMask).map (fun s => s.TIMSK2.testBit 1) = Except.ok true :=
  ⟨rfl, rfl, rfl⟩

/-- C6 witness: the amended critical-pair theorem instantiated at a concrete
state with nesting depth 0, SREG 128 and TIMSK2 2. -/
theorem critical_pair_witness :
    ∃ st2 : OsState, csPair stCS = Except.ok st2 ∧
      st2.criticalSectionCount = 0 ∧
      st2.SREG = stCS.SREG ∧
      st2.TIMSK2 = stCS.TIMSK2 ||| 2 ∧
      st2.os_processes = stCS.os_processes ∧
      st2.currentProcess = stCS.currentProcess ∧
      st2.currentProc = stCS.currentProc ∧
      st2.actual = stCS.actual ∧
      st2.schedulingInfo = stCS.schedulingInfo ∧
      st2.SP = stCS.SP ∧
      st2.mem = stCS.mem ∧
      (stCS.TIMSK2.testBit 1 = true → st2.TIMSK2 = stCS.TIMSK2) :=
  critical_pair_restores_state_and_enables_timer stCS rfl (by decide) (by decide)

/-- C7 witness: os_exec on a concrete full table returns INVALID_PROCESS with
the table unchanged. -/
theorem exec_full_table_witness :
    ∃ st2 : OsState, os_exec 4000 5 stFull = Except.ok (INVALID_PROCESS, st2) ∧
      st2.os_processes = stFull.os_processes :=
  exec_full_table_invalid_and_table_unchanged 4000 5 stFull (by decide) (by decide)

/-- C8 (counterexample): with slot 3 the only Ready slot (non-idle) and slot 0
not Ready, both Even and the RunToCompletion fallback return 0 (their
ready-count is 1), refuting the claim that a non-idle Ready slot forces a
return value in [1, N_MAX). -/
theorem even_returns_idle_with_single_nonidle_ready :
    (tblOnly3 3).state = OS_PS_READY ∧
    (3 : Fin 8).val ≠ 0 ∧
    (tblOnly3 1).state ≠ OS_PS_READY ∧
    os_Scheduler_Even tblOnly3 1 = some 0 ∧
    os_Scheduler_RunToCompletion tblOnly3 1 = some 0 := by decide

/-- C8 (amended): whenever at least two slots are Ready (equivalently, a
non-idle Ready slot is not the only Ready slot), Even returns a Ready slot
with id in [1, N_MAX); and so does RunToCompletion whenever additionally its
current slot is not Ready. -/
theorem even_and_rtc_return_nonidle_when_two_ready (processes : Fin 8 → Process)
    (current : Fin 8) (h2 : 2 ≤ numberOfReadyProcs processes) :
    (∃ r : Fin 8, os_Scheduler_Even processes current = some r ∧ 1 ≤ r.val ∧
      (processes r).state = OS_PS_READY) ∧
    ((processes current).state ≠ OS_PS_READY →
      ∃ r : Fin 8, os_Scheduler_RunToCompletion processes current = some r ∧ 1 ≤ r.val ∧
        (processes r).state = OS_PS_READY) := by
  obtain ⟨r0, hr0, hready0⟩ := two_ready_nonidle processes h2
  obtain ⟨w, hw⟩ := evenSearch_success processes current r0 hr0 hready0
  have hn1 : numberOfReadyProcs processes ≠ 1 := by omega
  obtain ⟨hw1, hw2⟩ := evenSearch_some_spec processes 7 current w hw
  constructor
  · refine ⟨w, ?_, hw1, hw2⟩
    unfold os_Scheduler_Even
    rw [if_neg hn1]
    exact hw
  · intro hcur
    refine ⟨w, ?_, hw1, hw2⟩
    unfold os_Scheduler_RunToCompletion
    rw [if_neg hcur, if_neg hn1]
    exact hw

/-- C8 witness: the amended Even/RunToCompletion theorem instantiated at a
concrete table with two Ready slots and a non-Ready current slot. -/
theorem even_and_rtc_witness :
    (∃ r : Fin 8, os_Scheduler_Even tblRR 3 = some r ∧ 1 ≤ r.val ∧
      (tblRR r).state = OS_PS_READY) ∧
    ((tblRR 3).state ≠ OS_PS_READY →
      ∃ r : Fin 8, os_Scheduler_RunToCompletion tblRR 3 = some r ∧ 1 ≤ r.val ∧
        (tblRR r).state = OS_PS_READY) :=
  even_and_rtc_return_nonidle_when_two_ready tblRR 3 (by decide)

/-- C9: os_setSchedulingStrategy only invokes the strategy-reset routine and
never stores its argument into the active-strategy variable, so
os_getSchedulingStrategy returns the same value before and after the call,
for every strategy argument and every state. -/
theorem set_strategy_preserves_active_strategy (s : SchedulingStrategy) (st : OsState) :
    os_getSchedulingStrategy (os_setSchedulingStrategy s st) = os_getSchedulingStrategy st := by
  cases s <;> rfl

/-- The state after entering a critical section from the concrete state stCS,
used by the C10 witness. -/
def stAfterEnter : OsState := (applyOp OsOp.enterCS stCS).getD stCS

/-- C10 witness: the currentProc-stays-zero theorem instantiated at the
concrete enterCS operation on stCS. -/
theorem curproc_zero_witness : os_getCurrentProc stAfterEnter = 0 :=
  curproc_zero_after_every_op OsOp.enterCS stCS stAfterEnter rfl rfl
